import Mathlib

/-!
Verification of the mcp_calc request/cache pipeline and option analytics.

Shallow embedding of `src/main.py`, `src/utils/data_types.py`,
`src/utils/data_engine.py` and `src/utils/greeks.py`.  Prices, strikes and
volatilities are modelled as rationals; the external market-data provider
(yfinance) is modelled as an explicit `MarketData` record of the values its
calls would return; transcendental functions (log, sqrt, erf, the normal cdf)
are abstract function parameters, since the properties proved here do not
depend on their values.
-/

/-- A request descriptor: the four identity fields of `OptionDataRequest`
(`src/utils/data_types.py`, `src/main.py`), without the result future. -/
structure RequestDescriptor where
  ticker : String
  option_type : String
  expiration_date : Option String
  strike : Option ℚ
deriving DecidableEq

/-- One row of an option chain: the two columns read by
`process_option_request` (`src/main.py` lines 82-83). -/
structure ChainRow where
  strike : ℚ
  impliedVolatility : ℚ
deriving DecidableEq

/-- The result dictionary built by `process_option_request`
(`src/main.py` lines 88-95). -/
structure Payload where
  S : ℚ
  K : ℚ
  T : ℚ
  r : ℚ
  sigma : ℚ
  option_type : String
deriving DecidableEq

/-- The four fetch failure modes raised as `ValueError` in
`process_option_request` (`src/main.py` lines 46, 51, 56, 70). -/
inductive FetchError where
  | noPriceHistory (ticker : String)
  | noOptionsListed (ticker : String)
  | unknownExpiration (d : String)
  | emptyChain (option_type ticker expiration : String)
deriving DecidableEq

/-- The external market state visible through yfinance for one ticker:
the close-price history, the expiration list, the call and put chains per
expiration, and the whole number of days from today to a given expiration
date (the `.days` of the datetime difference in `src/main.py` line 61). -/
structure MarketData where
  hist : List ℚ
  expirations : List String
  calls : String → List ChainRow
  puts : String → List ChainRow
  daysUntil : String → ℤ

/-- Python truthiness of the `expiration_date` argument: `not expiration_date`
(`src/main.py` line 53) is true for `None` and for the empty string. -/
def expirationUnspecified (ed : Option String) : Bool :=
  match ed with
  | none => true
  | some d => d = ""

/-- Expiration resolution of `src/main.py` lines 53-56: an unspecified
expiration defaults to the first listed one; a specified expiration must be a
member of the listed set. -/
def resolveExpiration (exps : List String) (ed : Option String) : Except FetchError String :=
  if expirationUnspecified ed then .ok (exps.headD "")
  else
    let d := ed.getD ""
    if d ∈ exps then .ok d else .error (.unknownExpiration d)

/-- Time to expiration of `src/main.py` lines 58-63: whole days divided by
365, replaced by 0.001 when the quotient is nonpositive. -/
def computeT (days : ℤ) : ℚ :=
  let t : ℚ := (days : ℚ) / 365
  if t ≤ 0 then 1 / 1000 else t

/-- Python's `str.lower()`, character by character (the option types compared
against are plain ASCII). -/
def pyLower (s : String) : String := ⟨s.data.map Char.toLower⟩

/-- Chain choice of `src/main.py` line 67: the calls table when the lowercased
option type is "call", the puts table otherwise. -/
def chainFor (m : MarketData) (option_type ed : String) : List ChainRow :=
  if pyLower option_type = "call" then m.calls ed else m.puts ed

/-- Running best of `(chain[strike] - target).abs().idxmin()`: keeps the
earliest row on ties (pandas `idxmin` returns the first index attaining the
minimum), replacing the current best only on a strictly smaller distance. -/
def selectClosestAux (target : ℚ) (b : ChainRow) : List ChainRow → ChainRow
  | [] => b
  | row :: rest =>
    if |row.strike - target| < |b.strike - target| then selectClosestAux target row rest
    else selectClosestAux target b rest

/-- `(chain[strike] - target).abs().idxmin()` followed by `chain.loc[idx]`
(`src/main.py` lines 73-80): the first row whose strike has minimal absolute
distance to the target; `none` exactly when the chain is empty. -/
def selectClosest (target : ℚ) : List ChainRow → Option ChainRow
  | [] => none
  | row :: rest => some (selectClosestAux target row rest)

/-- The fetch logic of `process_option_request` (`src/main.py` lines 38-95):
last close price, expiration check and resolution, time to expiration, chain
lookup, emptiness check, nearest-strike selection, payload construction with
the fixed risk-free rate 0.045. -/
def process_fetch (m : MarketData) (ticker option_type : String)
    (expiration_date : Option String) (strike : Option ℚ) : Except FetchError Payload :=
  match m.hist.getLast? with
  | none => .error (.noPriceHistory ticker)
  | some S =>
    if m.expirations.isEmpty then .error (.noOptionsListed ticker)
    else
      match resolveExpiration m.expirations expiration_date with
      | .error e => .error e
      | .ok ed =>
        let T := computeT (m.daysUntil ed)
        let chain := chainFor m option_type ed
        match selectClosest (strike.getD S) chain with
        | none => .error (.emptyChain option_type ticker ed)
        | some sel => .ok ⟨S, sel.strike, T, 9 / 200, sel.impliedVolatility, option_type⟩

/-- Queue bound of `src/main.py` line 26: `asyncio.Queue(maxsize=5)`. -/
def QUEUE_CAPACITY : Nat := 5

/-- The admission gate `get_option_data` (`src/main.py` lines 148-176),
restricted to its queue effects.  `qAtCheck` is the queue content when
`request_queue.full()` is evaluated (line 151) and `qAtPut` the content when
`put_nowait` runs (line 170); under cooperative scheduling they coincide, but
the code guards both points, and the `QueueFull` branch of `put_nowait`
(lines 171-173) re-raises the overload error.  Returns (overload error was
raised, resulting queue). -/
def get_option_data_submit (qAtCheck qAtPut : List RequestDescriptor)
    (req : RequestDescriptor) : Bool × List RequestDescriptor :=
  if QUEUE_CAPACITY ≤ qAtCheck.length then (true, qAtPut)
  else if QUEUE_CAPACITY ≤ qAtPut.length then (true, qAtPut)
  else (false, qAtPut ++ [req])

/-- The single-assignment result slot of a request: `None` while the
`asyncio.Future` is pending, `some` once resolved with a value or an error. -/
def FutureState : Type := Option (Except FetchError Payload)

/-- The future-completion logic of `process_option_request`
(`src/main.py` lines 96-104): `set_result` on success and `set_exception` on
failure, each guarded by `if not req.future.done()`. -/
def resolveOnce (fut : FutureState) (outcome : Except FetchError Payload) : FutureState :=
  match outcome with
  | .ok p => match fut with
    | some x => some x
    | none => some (.ok p)
  | .error e => match fut with
    | some x => some x
    | none => some (.error e)

/-- Possible outcomes of handling one dequeued request inside the worker loop:
the handler returns normally after a successful fetch, returns normally after
delivering a fetch failure to the future, or raises an unexpected exception
(caught by the `except` clause in `src/main.py` lines 115-116). -/
inductive ProcOutcome where
  | success
  | fetchFailure
  | handlerRaises
deriving DecidableEq

/-- One iteration of `worker` (`src/main.py` lines 106-118): dequeue the head
request, run the handler under `try`, swallow any exception in `except`, and
release the queue slot via `task_done()` in `finally`.  Returns `none` when
the queue is empty (the worker is suspended in `await request_queue.get()`);
otherwise `some (remaining queue, slot released, loop continues)`. -/
def worker_iteration (queue : List RequestDescriptor) (outcome : ProcOutcome) :
    Option (List RequestDescriptor × Bool × Bool) :=
  match queue with
  | [] => none
  | _ :: rest =>
    match outcome with
    | .success => some (rest, true, true)
    | .fetchFailure => some (rest, true, true)
    | .handlerRaises => some (rest, true, true)

/-- The cache entry of `src/utils/data_types.py` lines 7-11. -/
structure CacheEntry where
  data : Payload
  timestamp : ℚ
  is_refreshing : Bool
deriving DecidableEq

/-- TTL constant declared in `src/utils/data_engine.py` line 13. -/
def CACHE_TTL : ℚ := 60

/-- Modelled from the spec: the SWR window constant (section 6, default 300
seconds); no such constant appears under src. -/
def SWR_WINDOW : ℚ := 300

/-- The three freshness states of a cache entry. -/
inductive Freshness where
  | fresh
  | stale
  | expired
deriving DecidableEq

/-- Modelled from the spec: the Freshness Policy of section 4.4 and the
thresholds of section 3 (age < TTL is FRESH, TTL ≤ age < SWR is STALE,
age ≥ SWR is EXPIRED); the classification logic is absent from src. -/
def classifyFreshness (now ts ttl swr : ℚ) : Freshness :=
  if now - ts < ttl then .fresh
  else if now - ts < swr then .stale
  else .expired

/-- The cache store: request fingerprint to entry, as the dict
`option_cache` declared in `src/utils/data_engine.py` line 12. -/
def CacheStore : Type := RequestDescriptor → Option CacheEntry

/-- Pointwise update of the cache store at one key. -/
def cacheWrite (c : CacheStore) (key : RequestDescriptor) (e : Option CacheEntry) : CacheStore :=
  fun q => if q = key then e else c q

/-- Observable effects of one worker-side handling of a dequeued descriptor:
the cache afterwards, what the pending handle was resolved with, how many
synchronous Data Fetcher calls were made, and whether a detached background
refresh task was launched. -/
structure StepResult where
  cache : CacheStore
  resolved : Except FetchError Payload
  fetcherCalls : Nat
  refreshLaunched : Bool

/-- Modelled from the spec: the miss/expired path of section 4.2 step 4 —
invoke the Data Fetcher synchronously; on success resolve the handle with the
value and overwrite the entry with (data, now, refreshing=false); on failure
resolve the handle with the failure and leave the cache store untouched.
`fetch` is the outcome the Data Fetcher returns for this descriptor. -/
def fetchAndPopulate (now : ℚ) (cache : CacheStore) (key : RequestDescriptor)
    (fetch : Except FetchError Payload) : StepResult :=
  match fetch with
  | .ok p => ⟨cacheWrite cache key (some ⟨p, now, false⟩), .ok p, 1, false⟩
  | .error e => ⟨cache, .error e, 1, false⟩

/-- Modelled from the spec: the worker loop body of section 4.2 steps 1-4.
The cache-consulting pipeline is absent from src (only `option_cache`,
`CACHE_TTL` and `CacheEntry` are declared in `src/utils`); this follows the
spec's state machine: absent entry goes to the miss path, FRESH serves the
entry with no I/O, STALE serves the entry and launches a detached refresh
only when `is_refreshing` is false (setting the flag), EXPIRED behaves as a
miss. -/
def workerProcess (now : ℚ) (cache : CacheStore) (key : RequestDescriptor)
    (fetch : Except FetchError Payload) : StepResult :=
  match cache key with
  | none => fetchAndPopulate now cache key fetch
  | some entry =>
    match classifyFreshness now entry.timestamp CACHE_TTL SWR_WINDOW with
    | .fresh => ⟨cache, .ok entry.data, 0, false⟩
    | .stale =>
      if entry.is_refreshing then ⟨cache, .ok entry.data, 0, false⟩
      else
        ⟨cacheWrite cache key (some { entry with is_refreshing := true }),
          .ok entry.data, 0, true⟩
    | .expired => fetchAndPopulate now cache key fetch

/-- Modelled from the spec: completion of a detached refresh task, section
4.3 — on success overwrite the entry with (data, now, refreshing=false); on
failure clear the `is_refreshing` flag on the entry if still present, never
touching the stored data. -/
def refreshComplete (now : ℚ) (cache : CacheStore) (key : RequestDescriptor)
    (fetch : Except FetchError Payload) : CacheStore :=
  match fetch with
  | .ok p => cacheWrite cache key (some ⟨p, now, false⟩)
  | .error _ =>
    match cache key with
    | none => cache
    | some e => cacheWrite cache key (some { e with is_refreshing := false })

/-- The `calculate_delta` tool of `src/main.py` lines 180-202, over abstract
`log`, `sqrt` and `erf` (its result either way is N(d1) or N(d1) - 1 with
N(d1) = 0.5 * (1 + erf(d1 / sqrt 2)), and the properties proved below hold
for every choice of these functions). -/
def main_calculate_delta (log sqrt erf : ℚ → ℚ) (S K T r sigma : ℚ)
    (option_type : String) : Except String ℚ :=
  let d1 := (log (S / K) + (r + (1 / 2) * sigma ^ 2) * T) / (sigma * sqrt T)
  let cdf_d1 := (1 / 2) * (1 + erf (d1 / sqrt 2))
  if pyLower option_type = "call" then .ok cdf_d1
  else if pyLower option_type = "put" then .ok (cdf_d1 - 1)
  else .error "option_type must be call or put"

/-- The vectorized `calculate_delta` of `src/utils/greeks.py` lines 19-35 on
scalar inputs, over abstract `log`, `sqrt` and the normal cdf.  `_d1_d2`
clamps T and sigma at 1e-9; the first two branches compare `option_type`
case-sensitively, and the final (scalar) fallback returns the call value when
the lowercased type is "call" and the put value otherwise — it never
raises. -/
def greeks_calculate_delta (log sqrt cdf : ℚ → ℚ) (S K T r sigma : ℚ)
    (option_type : String) : ℚ :=
  let T2 := max T (1 / 1000000000)
  let sigma2 := max sigma (1 / 1000000000)
  let d1 := (log (S / K) + (r + (1 / 2) * sigma2 ^ 2) * T2) / (sigma2 * sqrt T2)
  if option_type = "call" then cdf d1
  else if option_type = "put" then cdf d1 - 1
  else if pyLower option_type = "call" then cdf d1 else cdf d1 - 1

/-- A concrete payload used by witness statements. -/
def samplePayload : Payload := ⟨100, 100, 1 / 10, 9 / 200, 1 / 5, "call"⟩

/-- A concrete descriptor used by witness statements. -/
def sampleDescriptor : RequestDescriptor := ⟨"AAPL", "call", none, none⟩

/-- A concrete market state on which `process_fetch` succeeds: one close
price, one expiration, one-row chains, expiry 30 days out. -/
def sampleMarket : MarketData where
  hist := [100]
  expirations := ["2026-01-16"]
  calls := fun _ => [⟨100, 1 / 5⟩]
  puts := fun _ => [⟨100, 1 / 4⟩]
  daysUntil := fun _ => 30

/-! ### Helper lemmas -/

lemma selectClosestAux_spec (t : ℚ) (b : ChainRow) (rows : List ChainRow) :
    (selectClosestAux t b rows = b ∨ selectClosestAux t b rows ∈ rows) ∧
    |(selectClosestAux t b rows).strike - t| ≤ |b.strike - t| ∧
    ∀ r ∈ rows, |(selectClosestAux t b rows).strike - t| ≤ |r.strike - t| := by
  induction rows generalizing b with
  | nil => simp [selectClosestAux]
  | cons row rest ih =>
    by_cases h : |row.strike - t| < |b.strike - t|
    · simp only [selectClosestAux, if_pos h]
      obtain ⟨m1, m2, m3⟩ := ih row
      refine ⟨?_, le_trans m2 (le_of_lt h), ?_⟩
      · rcases m1 with m1 | m1
        · exact Or.inr (by rw [m1]; exact List.mem_cons_self row rest)
        · exact Or.inr (List.mem_cons_of_mem row m1)
      · intro r hr
        rcases List.mem_cons.mp hr with rfl | hr
        · exact m2
        · exact m3 r hr
    · simp only [selectClosestAux, if_neg h]
      obtain ⟨m1, m2, m3⟩ := ih b
      refine ⟨?_, m2, ?_⟩
      · rcases m1 with m1 | m1
        · exact Or.inl m1
        · exact Or.inr (List.mem_cons_of_mem row m1)
      · intro r hr
        rcases List.mem_cons.mp hr with rfl | hr
        · exact le_trans m2 (not_lt.mp h)
        · exact m3 r hr

lemma selectClosest_spec (t : ℚ) (rows : List ChainRow) (b : ChainRow)
    (h : selectClosest t rows = some b) :
    b ∈ rows ∧ ∀ r ∈ rows, |b.strike - t| ≤ |r.strike - t| := by
  cases rows with
  | nil => simp [selectClosest] at h
  | cons row rest =>
    have hb : selectClosestAux t row rest = b := by
      simpa [selectClosest] using h
    obtain ⟨m1, m2, m3⟩ := selectClosestAux_spec t row rest
    rw [hb] at m1 m2 m3
    constructor
    · rcases m1 with m1 | m1
      · rw [m1]; exact List.mem_cons_self row rest
      · exact List.mem_cons_of_mem row m1
    · intro r hr
      rcases List.mem_cons.mp hr with rfl | hr
      · exact m2
      · exact m3 r hr

lemma selectClosest_eq_none (t : ℚ) (rows : List ChainRow) :
    selectClosest t rows = none ↔ rows = [] := by
  cases rows <;> simp [selectClosest]

lemma resolveExpiration_error_iff (exps : List String) (ed : Option String) :
    (∃ e, resolveExpiration exps ed = .error e) ↔
      expirationUnspecified ed = false ∧ ed.getD "" ∉ exps := by
  unfold resolveExpiration
  by_cases h1 : expirationUnspecified ed = true
  · simp [h1]
  · simp only [Bool.not_eq_true] at h1
    by_cases h2 : ed.getD "" ∈ exps
    · simp [h1, h2]
    · simp [h1, h2]

/-- The disjunction of the four failure conditions of the fetch:
no price history, no listed options, a specified expiration outside the
available set, and an empty resolved chain for the requested kind. -/
def fetchFailureCondition (m : MarketData) (option_type : String)
    (ed : Option String) : Prop :=
  m.hist = [] ∨ m.expirations = [] ∨
  (expirationUnspecified ed = false ∧ ed.getD "" ∉ m.expirations) ∨
  (∃ ed0, resolveExpiration m.expirations ed = .ok ed0 ∧ chainFor m option_type ed0 = [])

lemma process_fetch_ok (m : MarketData) (t ot : String) (ed : Option String)
    (k : Option ℚ) (p : Payload) (h : process_fetch m t ot ed k = .ok p) :
    ∃ S ed0 sel, m.hist.getLast? = some S ∧ m.expirations.isEmpty = false ∧
      resolveExpiration m.expirations ed = .ok ed0 ∧
      selectClosest (k.getD S) (chainFor m ot ed0) = some sel ∧
      p = ⟨S, sel.strike, computeT (m.daysUntil ed0), 9 / 200, sel.impliedVolatility, ot⟩ := by
  unfold process_fetch at h
  split at h
  · exact absurd h (by simp)
  · rename_i S hS
    split at h
    · exact absurd h (by simp)
    · rename_i hne
      split at h
      · exact absurd h (by simp)
      · rename_i ed0 hre
        dsimp only at h
        split at h
        · exact absurd h (by simp)
        · rename_i sel hsel
          refine ⟨S, ed0, sel, hS, by simpa using hne, hre, hsel, ?_⟩
          exact (Except.ok.injEq _ _).mp h.symm

lemma process_fetch_error (m : MarketData) (t ot : String) (ed : Option String)
    (k : Option ℚ) (e : FetchError) (h : process_fetch m t ot ed k = .error e) :
    fetchFailureCondition m ot ed := by
  unfold process_fetch at h
  unfold fetchFailureCondition
  split at h
  · rename_i hS
    exact Or.inl (List.getLast?_eq_none_iff.mp hS)
  · rename_i S hS
    split at h
    · rename_i hne
      exact Or.inr (Or.inl (List.isEmpty_iff.mp hne))
    · split at h
      · rename_i e2 hre
        refine Or.inr (Or.inr (Or.inl ?_))
        exact (resolveExpiration_error_iff m.expirations ed).mp ⟨e2, hre⟩
      · rename_i ed0 hre
        dsimp only at h
        split at h
        · rename_i hsel
          refine Or.inr (Or.inr (Or.inr ⟨ed0, hre, ?_⟩))
          exact (selectClosest_eq_none _ _).mp hsel
        · exact absurd h (by simp)

lemma process_fetch_ok_not_cond (m : MarketData) (t ot : String) (ed : Option String)
    (k : Option ℚ) (p : Payload) (h : process_fetch m t ot ed k = .ok p) :
    ¬ fetchFailureCondition m ot ed := by
  obtain ⟨S, ed0, sel, hS, hne, hre, hsel, -⟩ := process_fetch_ok m t ot ed k p h
  rintro (hc | hc | hc | ⟨ed1, hre1, hch⟩)
  · rw [hc] at hS; simp at hS
  · rw [hc] at hne; simp at hne
  · obtain ⟨e2, he2⟩ := (resolveExpiration_error_iff m.expirations ed).mpr hc
    rw [he2] at hre; exact absurd hre (by simp)
  · rw [hre1] at hre
    have : ed1 = ed0 := (Except.ok.injEq _ _).mp hre
    rw [this] at hch
    rw [hch] at hsel
    simp [selectClosest] at hsel

/-! ### Claim theorems -/

/-- Claim C3: with the queue already at `QUEUE_CAPACITY` (5) items, admission
fails immediately with the overload error and enqueues nothing; the race
where the queue is below capacity at the `full()` check but full again at
`put_nowait` also surfaces as the overload error without enqueueing; and the
resulting queue never exceeds capacity (no 6th item). -/
theorem admission_overload_reject (qAtCheck qAtPut : List RequestDescriptor)
    (req : RequestDescriptor) :
    QUEUE_CAPACITY = 5 ∧
    (QUEUE_CAPACITY ≤ qAtCheck.length ∨ QUEUE_CAPACITY ≤ qAtPut.length →
      get_option_data_submit qAtCheck qAtPut req = (true, qAtPut)) ∧
    (qAtPut.length ≤ QUEUE_CAPACITY →
      ((get_option_data_submit qAtCheck qAtPut req).2).length ≤ QUEUE_CAPACITY) := by
  refine ⟨rfl, ?_, ?_⟩
  · intro h
    unfold get_option_data_submit
    split_ifs with h1 h2
    · rfl
    · rfl
    · exfalso
      rcases h with h | h
      · exact h1 h
      · exact h2 h
  · intro h
    unfold get_option_data_submit
    split_ifs with h1 h2
    · exact h
    · exact h
    · simp only [List.length_append, List.length_singleton]
      omega

/-- Five concrete descriptors: a full queue. -/
def fiveRequests : List RequestDescriptor := List.replicate 5 sampleDescriptor

/-- Witness for C3: submitting to a queue of five items is rejected as
overloaded and the queue is returned unchanged. -/
theorem admission_overload_reject_witness :
    get_option_data_submit fiveRequests fiveRequests sampleDescriptor = (true, fiveRequests) :=
  (admission_overload_reject fiveRequests fiveRequests sampleDescriptor).2.1
    (Or.inl (by simp [fiveRequests, QUEUE_CAPACITY]))

/-- Claim C4: the pending handle of an admitted request is resolved at most
once — after the handler runs it is resolved, a handle that was already
resolved is left exactly as it was (no code path resolves it twice), and a
pending handle receives exactly the handler's outcome, a value or an error. -/
theorem future_single_resolution (fut : FutureState) (outcome : Except FetchError Payload) :
    (resolveOnce fut outcome).isSome = true ∧
    (∀ x, fut = some x → resolveOnce fut outcome = some x) ∧
    (fut = none → resolveOnce fut outcome = some outcome) := by
  obtain - | x := fut <;> obtain p | e := outcome <;> simp [resolveOnce]

/-- Witness for C4: a pending handle is resolved with the worker's successful
outcome. -/
theorem future_single_resolution_witness :
    resolveOnce none (.ok samplePayload) = some (.ok samplePayload) :=
  (future_single_resolution none (.ok samplePayload)).2.2 rfl

/-- Claim C5: for every dequeued item and every processing outcome — success,
fetch failure, or an exception raised by the per-item handler — the worker
iteration releases the queue slot and continues looping; it never terminates
because of a single request's outcome. -/
theorem worker_always_acks_and_continues (r : RequestDescriptor)
    (rest : List RequestDescriptor) (outcome : ProcOutcome) :
    worker_iteration (r :: rest) outcome = some (rest, true, true) := by
  cases outcome <;> rfl

lemma classifyFreshness_fresh (now ts : ℚ) (h : now - ts < CACHE_TTL) :
    classifyFreshness now ts CACHE_TTL SWR_WINDOW = .fresh := by
  unfold classifyFreshness
  rw [if_pos h]

lemma classifyFreshness_stale (now ts : ℚ) (h1 : CACHE_TTL ≤ now - ts)
    (h2 : now - ts < SWR_WINDOW) :
    classifyFreshness now ts CACHE_TTL SWR_WINDOW = .stale := by
  unfold classifyFreshness
  rw [if_neg (not_lt.mpr h1), if_pos h2]

/-- Claim C1: a request whose cache entry is younger than TTL (FRESH) is
resolved with the cached payload, performs zero Data Fetcher calls, launches
no refresh, and leaves the cache store untouched — for any behaviour of the
Data Fetcher. -/
theorem fresh_entry_served_without_io (now : ℚ) (cache : CacheStore)
    (key : RequestDescriptor) (entry : CacheEntry) (fetch : Except FetchError Payload)
    (hk : cache key = some entry) (hfresh : now - entry.timestamp < CACHE_TTL) :
    (workerProcess now cache key fetch).resolved = .ok entry.data ∧
    (workerProcess now cache key fetch).fetcherCalls = 0 ∧
    (workerProcess now cache key fetch).refreshLaunched = false ∧
    (workerProcess now cache key fetch).cache = cache := by
  have hstep : workerProcess now cache key fetch = ⟨cache, .ok entry.data, 0, false⟩ := by
    unfold workerProcess
    rw [hk]
    dsimp only
    rw [classifyFreshness_fresh now entry.timestamp hfresh]
  rw [hstep]
  exact ⟨rfl, rfl, rfl, rfl⟩

/-- A concrete cache store holding one entry with timestamp 0 for the sample
descriptor, used by witness statements. -/
def singletonCache : CacheStore :=
  fun k => if k = sampleDescriptor then some ⟨samplePayload, 0, false⟩ else none

/-- Witness for C1: at time 10 (age 10 < TTL 60) the sample entry is served
from cache with zero fetcher calls. -/
theorem fresh_entry_served_without_io_witness :
    (workerProcess 10 singletonCache sampleDescriptor
        (.error (.noPriceHistory "AAPL"))).fetcherCalls = 0 :=
  (fresh_entry_served_without_io 10 singletonCache sampleDescriptor
    ⟨samplePayload, 0, false⟩ (.error (.noPriceHistory "AAPL"))
    (by simp [singletonCache]) (by norm_num [CACHE_TTL])).2.1

/-- Claim C2: a request whose entry has age in [TTL, SWR_WINDOW) (STALE) with
no refresh in flight resolves immediately with the stale payload, performs
zero synchronous Data Fetcher calls, launches exactly one background refresh
and marks the entry as refreshing; a further request for the same key while
that refresh is in flight (the entry still stale) again resolves with the
stale payload, performs zero Data Fetcher calls and launches no further
refresh — at most one in-flight refresh per key. -/
theorem stale_entry_single_flight (now now2 : ℚ) (cache : CacheStore)
    (key : RequestDescriptor) (entry : CacheEntry) (fetch fetch2 : Except FetchError Payload)
    (hk : cache key = some entry)
    (h1 : CACHE_TTL ≤ now - entry.timestamp) (h2 : now - entry.timestamp < SWR_WINDOW)
    (hr : entry.is_refreshing = false)
    (h3 : CACHE_TTL ≤ now2 - entry.timestamp) (h4 : now2 - entry.timestamp < SWR_WINDOW) :
    (workerProcess now cache key fetch).resolved = .ok entry.data ∧
    (workerProcess now cache key fetch).fetcherCalls = 0 ∧
    (workerProcess now cache key fetch).refreshLaunched = true ∧
    (workerProcess now cache key fetch).cache key = some { entry with is_refreshing := true } ∧
    (workerProcess now2 (workerProcess now cache key fetch).cache key fetch2).resolved
      = .ok entry.data ∧
    (workerProcess now2 (workerProcess now cache key fetch).cache key fetch2).fetcherCalls = 0 ∧
    (workerProcess now2 (workerProcess now cache key fetch).cache key fetch2).refreshLaunched
      = false := by
  have hstep : workerProcess now cache key fetch =
      ⟨cacheWrite cache key (some { entry with is_refreshing := true }),
        .ok entry.data, 0, true⟩ := by
    unfold workerProcess
    rw [hk]
    dsimp only
    rw [classifyFreshness_stale now entry.timestamp h1 h2]
    dsimp only
    rw [hr]
    simp
  have hkey : cacheWrite cache key (some { entry with is_refreshing := true }) key
      = some { entry with is_refreshing := true } := by
    simp [cacheWrite]
  have hstep2 : workerProcess now2
      (cacheWrite cache key (some { entry with is_refreshing := true })) key fetch2 =
      ⟨cacheWrite cache key (some { entry with is_refreshing := true }),
        .ok entry.data, 0, false⟩ := by
    unfold workerProcess
    rw [hkey]
    dsimp only
    rw [classifyFreshness_stale now2 entry.timestamp h3 h4]
    rfl
  rw [hstep]
  rw [hstep2]
  exact ⟨rfl, rfl, rfl, hkey, rfl, rfl, rfl⟩

/-- Witness for C2: at time 120 (age 120, TTL 60 ≤ 120 < SWR 300) the sample
entry is stale and a refresh is launched; at time 130 no second refresh is
launched. -/
theorem stale_entry_single_flight_witness :
    (workerProcess 120 singletonCache sampleDescriptor
        (.error (.noPriceHistory "AAPL"))).refreshLaunched = true ∧
    (workerProcess 130 (workerProcess 120 singletonCache sampleDescriptor
        (.error (.noPriceHistory "AAPL"))).cache sampleDescriptor
        (.error (.noPriceHistory "AAPL"))).refreshLaunched = false := by
  have h := stale_entry_single_flight 120 130 singletonCache sampleDescriptor
    ⟨samplePayload, 0, false⟩ (.error (.noPriceHistory "AAPL")) (.error (.noPriceHistory "AAPL"))
    (by simp [singletonCache]) (by norm_num [CACHE_TTL]) (by norm_num [SWR_WINDOW])
    rfl (by norm_num [CACHE_TTL]) (by norm_num [SWR_WINDOW])
  exact ⟨h.2.2.1, h.2.2.2.2.2.2⟩

/-- Claim C6: whenever the worker actually invokes the Data Fetcher for a
dequeued request (miss or expired path) and that invocation fails, the
pending handle is resolved with exactly that failure and the whole cache
mapping — in particular any previously present entry — is left unchanged. -/
theorem fetch_failure_leaves_cache_unchanged (now : ℚ) (cache : CacheStore)
    (key : RequestDescriptor) (e : FetchError)
    (hcall : 1 ≤ (workerProcess now cache key (.error e)).fetcherCalls) :
    (workerProcess now cache key (.error e)).resolved = .error e ∧
    (workerProcess now cache key (.error e)).cache = cache := by
  rcases hk : cache key with - | entry
  · constructor
    · simp only [workerProcess, hk, fetchAndPopulate]
    · simp only [workerProcess, hk, fetchAndPopulate]
  · rcases hcl : classifyFreshness now entry.timestamp CACHE_TTL SWR_WINDOW with - | - | -
    · exfalso
      simp only [workerProcess, hk, hcl] at hcall
      omega
    · exfalso
      rcases hb : entry.is_refreshing with - | -
      · simp only [workerProcess, hk, hcl, hb] at hcall
        simp at hcall
      · simp only [workerProcess, hk, hcl, hb] at hcall
        simp at hcall
    · constructor
      · simp only [workerProcess, hk, hcl, fetchAndPopulate]
      · simp only [workerProcess, hk, hcl, fetchAndPopulate]

/-- The empty cache store. -/
def emptyCache : CacheStore := fun _ => none

/-- Witness for C6: on a cache miss a failed fetch resolves the handle with
the failure. -/
theorem fetch_failure_leaves_cache_unchanged_witness :
    (workerProcess 0 emptyCache sampleDescriptor
        (.error (.noPriceHistory "AAPL"))).resolved = .error (.noPriceHistory "AAPL") :=
  (fetch_failure_leaves_cache_unchanged 0 emptyCache sampleDescriptor
    (.noPriceHistory "AAPL") (by simp [workerProcess, emptyCache, fetchAndPopulate])).1

/-- Claim C7: the fetch fails with a `FetchError` if and only if the symbol
has no retrievable price history, or no listed options, or a specified
expiration is outside the available set, or the resolved chain for the
requested kind is empty; otherwise it returns a payload of spot price,
strike, time to expiration, the risk-free rate 0.045, implied volatility and
the requested kind. -/
theorem fetch_error_characterization (m : MarketData) (t ot : String)
    (ed : Option String) (k : Option ℚ) :
    ((∃ e, process_fetch m t ot ed k = .error e) ↔ fetchFailureCondition m ot ed) ∧
    (¬ fetchFailureCondition m ot ed →
      ∃ S K T sig, process_fetch m t ot ed k = .ok ⟨S, K, T, 9 / 200, sig, ot⟩) := by
  constructor
  · constructor
    · rintro ⟨e, he⟩
      exact process_fetch_error m t ot ed k e he
    · intro hc
      rcases hres : process_fetch m t ot ed k with p | e
      · exact ⟨p, rfl⟩
      · exact absurd hc (process_fetch_ok_not_cond m t ot ed k e hres)
  · intro hc
    rcases hres : process_fetch m t ot ed k with p | e
    · exact absurd (process_fetch_error m t ot ed k p hres) hc
    · obtain ⟨S, ed0, sel, -, -, -, -, hp⟩ := process_fetch_ok m t ot ed k e hres
      exact ⟨S, sel.strike, computeT (m.daysUntil ed0), sel.impliedVolatility,
        by rw [hp]⟩

/-- Witness for C7: on the sample market the fetch produces a payload, and
the failure condition indeed does not hold there. -/
theorem fetch_error_characterization_witness :
    ∃ S K T sig, process_fetch sampleMarket "AAPL" "call" none none
      = .ok ⟨S, K, T, 9 / 200, sig, "call"⟩ :=
  (fetch_error_characterization sampleMarket "AAPL" "call" none none).2
    (by
      rintro (hc | hc | hc | ⟨ed0, hre, hch⟩)
      · simp [sampleMarket] at hc
      · simp [sampleMarket] at hc
      · simp [expirationUnspecified] at hc
      · have hed : ed0 = "2026-01-16" := by
          have := hre
          simp [sampleMarket, resolveExpiration, expirationUnspecified] at this
          exact this.symm
        rw [hed] at hch
        unfold chainFor at hch
        rw [if_pos (by decide : pyLower "call" = "call")] at hch
        simp [sampleMarket] at hch)

/-- Claim C8: when no expiration is specified the first listed expiration is
used; on success the selected chain row is a member of the resolved chain
whose strike minimises the absolute distance to the spot price when no strike
was requested, and to the requested strike when one was. -/
theorem nearest_expiration_and_strike (m : MarketData) (t ot : String)
    (ed : Option String) (k : ℚ) (p q : Payload) :
    (∀ exps : List String, exps ≠ [] → resolveExpiration exps none = .ok (exps.headD "")) ∧
    (process_fetch m t ot ed none = .ok p →
      ∃ ed0 row, resolveExpiration m.expirations ed = .ok ed0 ∧
        row ∈ chainFor m ot ed0 ∧ p.K = row.strike ∧
        ∀ r2 ∈ chainFor m ot ed0, |row.strike - p.S| ≤ |r2.strike - p.S|) ∧
    (process_fetch m t ot ed (some k) = .ok q →
      ∃ ed0 row, resolveExpiration m.expirations ed = .ok ed0 ∧
        row ∈ chainFor m ot ed0 ∧ q.K = row.strike ∧
        ∀ r2 ∈ chainFor m ot ed0, |row.strike - k| ≤ |r2.strike - k|) := by
  refine ⟨?_, ?_, ?_⟩
  · intro exps hne
    simp [resolveExpiration, expirationUnspecified]
  · intro h
    obtain ⟨S, ed0, sel, hS, hne, hre, hsel, hp⟩ := process_fetch_ok m t ot ed none p h
    obtain ⟨hmem, hmin⟩ := selectClosest_spec _ _ _ hsel
    refine ⟨ed0, sel, hre, hmem, by rw [hp], ?_⟩
    intro r2 hr2
    have := hmin r2 hr2
    rw [hp]
    simpa using this
  · intro h
    obtain ⟨S, ed0, sel, hS, hne, hre, hsel, hp⟩ := process_fetch_ok m t ot ed (some k) q h
    obtain ⟨hmem, hmin⟩ := selectClosest_spec _ _ _ hsel
    refine ⟨ed0, sel, hre, hmem, by rw [hp], ?_⟩
    intro r2 hr2
    have := hmin r2 hr2
    simpa using this

/-- Witness for C8: with no expiration specified, the single listed
expiration — the first — is resolved. -/
theorem nearest_expiration_and_strike_witness :
    resolveExpiration ["2026-01-16"] none = .ok "2026-01-16" :=
  (nearest_expiration_and_strike sampleMarket "AAPL" "call" none 90
    samplePayload samplePayload).1 ["2026-01-16"] (by simp)

/-- Claim C10: the time-to-expiration computation (whole days divided by 365,
replaced by 0.001 when nonpositive) is strictly positive for every day count,
and every payload successfully produced by the fetch carries exactly that
value for the resolved expiration — callers never receive T ≤ 0. -/
theorem payload_time_positive (m : MarketData) (t ot : String) (ed : Option String)
    (k : Option ℚ) (p : Payload) :
    (∀ d : ℤ, 0 < computeT d) ∧
    (process_fetch m t ot ed k = .ok p →
      0 < p.T ∧ ∃ ed0, resolveExpiration m.expirations ed = .ok ed0 ∧
        p.T = computeT (m.daysUntil ed0)) := by
  have hpos : ∀ d : ℤ, 0 < computeT d := by
    intro d
    unfold computeT
    dsimp only
    split_ifs with h
    · norm_num
    · exact not_le.mp h
  refine ⟨hpos, ?_⟩
  intro h
  obtain ⟨S, ed0, sel, -, -, hre, -, hp⟩ := process_fetch_ok m t ot ed k p h
  exact ⟨by rw [hp]; exact hpos _, ed0, hre, by rw [hp]⟩

/-- The payload `process_fetch` produces on the sample market. -/
def sampleResult : Payload := ⟨100, 100, 6 / 73, 9 / 200, 1 / 5, "call"⟩

/-- Witness for C10: the payload fetched on the sample market has strictly
positive time to expiration. -/
theorem payload_time_positive_witness : 0 < sampleResult.T :=
  ((payload_time_positive sampleMarket "AAPL" "call" none none sampleResult).2
    (by
      show process_fetch sampleMarket "AAPL" "call" none none = .ok sampleResult
      unfold process_fetch sampleMarket resolveExpiration expirationUnspecified
      norm_num [computeT, chainFor, selectClosest, selectClosestAux, pyLower, sampleResult]
      have hc : ({ data := ['c'.toLower, 'a'.toLower, 'l'.toLower, 'l'.toLower] } : String)
          = "call" := by decide
      simp [hc, selectClosestAux])).1

/-- Counterexample for C9 as stated: the vectorized `calculate_delta` of
`src/utils/greeks.py` does not raise for an option type that is neither
"call" nor "put" — on the scalar type "banana" its final fallback returns the
put value (with the zero cdf the put delta is -1, and "banana" yields that
same normally returned value, not an error; the function has no raise path at
all). -/
theorem greeks_delta_invalid_type_returns_put :
    greeks_calculate_delta (fun _ => 0) (fun _ => 0) (fun _ => 0) 1 1 1 0 1 "banana"
      = greeks_calculate_delta (fun _ => 0) (fun _ => 0) (fun _ => 0) 1 1 1 0 1 "put" ∧
    greeks_calculate_delta (fun _ => 0) (fun _ => 0) (fun _ => 0) 1 1 1 0 1 "banana"
      = -1 := by
  have hb1 : ¬ ("banana" : String) = "call" := by decide
  have hb2 : ¬ ("banana" : String) = "put" := by decide
  have hb3 : ¬ pyLower "banana" = "call" := by decide
  have hp1 : ¬ ("put" : String) = "call" := by decide
  constructor
  · unfold greeks_calculate_delta
    rw [if_neg hb1, if_neg hb2, if_neg hb3, if_neg hp1, if_pos rfl]
  · unfold greeks_calculate_delta
    rw [if_neg hb1, if_neg hb2, if_neg hb3]
    norm_num

/-- Claim C9 (amended): for positive S, K, T, sigma and any r — and for every
choice of the transcendental helpers — the call and put deltas differ by
exactly 1 in both implementations, since both branches are derived from the
same N(d1); `calculate_delta` in `src/main.py` raises an error for any option
type whose lowercase form is neither "call" nor "put" (case-insensitively),
while the vectorized `calculate_delta` of `src/utils/greeks.py` instead
returns the put value for any scalar option type whose lowercase form is not
"call". -/
theorem delta_call_put_parity (log sqrt erf cdf : ℚ → ℚ) (S K T r sigma : ℚ)
    (hS : 0 < S) (hK : 0 < K) (hT : 0 < T) (hsig : 0 < sigma) :
    (∃ c p, main_calculate_delta log sqrt erf S K T r sigma "call" = .ok c ∧
        main_calculate_delta log sqrt erf S K T r sigma "put" = .ok p ∧ c - p = 1) ∧
    greeks_calculate_delta log sqrt cdf S K T r sigma "call"
        - greeks_calculate_delta log sqrt cdf S K T r sigma "put" = 1 ∧
    (∀ ot, ¬ pyLower ot = "call" → ¬ pyLower ot = "put" →
      main_calculate_delta log sqrt erf S K T r sigma ot
        = .error "option_type must be call or put") ∧
    (∀ ot, ¬ pyLower ot = "call" →
      greeks_calculate_delta log sqrt cdf S K T r sigma ot
        = greeks_calculate_delta log sqrt cdf S K T r sigma "put") := by
  have hcall : pyLower "call" = "call" := by decide
  have hput : pyLower "put" = "put" := by decide
  have hpc : ¬ pyLower "put" = "call" := by decide
  have hpc2 : ¬ ("put" : String) = "call" := by decide
  refine ⟨?_, ?_, ?_, ?_⟩
  · have h1 : main_calculate_delta log sqrt erf S K T r sigma "call"
        = .ok ((1 / 2) * (1 + erf ((log (S / K) + (r + (1 / 2) * sigma ^ 2) * T)
            / (sigma * sqrt T) / sqrt 2))) := by
      unfold main_calculate_delta
      rw [if_pos hcall]
    have h2 : main_calculate_delta log sqrt erf S K T r sigma "put"
        = .ok ((1 / 2) * (1 + erf ((log (S / K) + (r + (1 / 2) * sigma ^ 2) * T)
            / (sigma * sqrt T) / sqrt 2)) - 1) := by
      unfold main_calculate_delta
      rw [if_neg hpc, if_pos hput]
    exact ⟨_, _, h1, h2, by ring⟩
  · unfold greeks_calculate_delta
    rw [if_pos rfl, if_neg hpc2, if_pos rfl]
    ring
  · intro ot h1 h2
    unfold main_calculate_delta
    rw [if_neg h1, if_neg h2]
  · intro ot h1
    by_cases hoc : ot = "call"
    · exact absurd (by rw [hoc]; exact hcall) h1
    · by_cases hop : ot = "put"
      · rw [hop]
      · unfold greeks_calculate_delta
        rw [if_neg hoc, if_neg hop, if_neg h1, if_neg hpc2, if_pos rfl]

/-- Witness for C9 (amended): with the zero cdf and unit inputs, the call and
put deltas of the vectorized implementation differ by exactly 1. -/
theorem delta_call_put_parity_witness :
    greeks_calculate_delta (fun _ => 0) (fun _ => 0) (fun _ => 0) 1 1 1 0 1 "call"
      - greeks_calculate_delta (fun _ => 0) (fun _ => 0) (fun _ => 0) 1 1 1 0 1 "put" = 1 :=
  (delta_call_put_parity (fun _ => 0) (fun _ => 0) (fun _ => 0) (fun _ => 0) 1 1 1 0 1
    one_pos one_pos one_pos one_pos).2.1
